import Mathlib

/-!
Verification of the lead-submission API route (`src/pages/api/lead.ts`).

The handler and its helpers are shallowly embedded: JavaScript strings are
modelled as Lean `String`s (with `List Char` views where convenient), the
in-memory rate-limit table as a function `String → Option RateRecord`,
wall-clock time as an explicit `Int` parameter (`Date.now()` milliseconds),
JSON bodies as an inductive `JsValue`, and the external e-mail delivery
collaborator as two boolean outcomes (one per send) together with the list
of delivery calls the handler issued.  A JavaScript exception that no
`try/catch` of the handler intercepts is modelled as the `thrown` outcome.
-/

/-! ## Rate limiter (`checkRateLimit`, lines 8–39) -/

/-- One entry of `rateLimitMap`: `{ count, timestamp }`. -/
structure RateRecord where
  count : Nat
  timestamp : Int

/-- `RATE_LIMIT_WINDOW = 60 * 1000` (milliseconds). -/
def RATE_LIMIT_WINDOW : Int := 60 * 1000

/-- `RATE_LIMIT_MAX = 5` requests per window per client. -/
def RATE_LIMIT_MAX : Nat := 5

/-- The in-memory `rateLimitMap`, as a lookup function. -/
def RateLimitMap : Type := String → Option RateRecord

/-- `rateLimitMap.set(ip, r)`. -/
def mapSet (m : RateLimitMap) (ip : String) (r : RateRecord) : RateLimitMap :=
  fun k => if k = ip then some r else m k

/-- The empty table (process start). -/
def emptyRateLimitMap : RateLimitMap := fun _ => none

/-- `checkRateLimit(ip)` at time `now`: returns the admission boolean and the
updated table.  Mirrors lines 12–27 of the source: a missing or expired
record is replaced by `{count: 1, timestamp: now}` and the request admitted;
an in-window record with `count >= RATE_LIMIT_MAX` rejects without mutation;
otherwise `count` is incremented and the request admitted. -/
def checkRateLimit (now : Int) (ip : String) (m : RateLimitMap) :
    Bool × RateLimitMap :=
  match m ip with
  | none => (true, mapSet m ip ⟨1, now⟩)
  | some record =>
    if RATE_LIMIT_WINDOW < now - record.timestamp then
      (true, mapSet m ip ⟨1, now⟩)
    else if RATE_LIMIT_MAX ≤ record.count then
      (false, m)
    else
      (true, mapSet m ip ⟨record.count + 1, record.timestamp⟩)

/-- Run `checkRateLimit` for one client at each time of `ts` in order,
collecting the admission results and the final table. -/
def runSeq (ip : String) : List Int → RateLimitMap → List Bool × RateLimitMap
  | [], m => ([], m)
  | t :: ts, m =>
    let step := checkRateLimit t ip m
    let rest := runSeq ip ts step.2
    (step.1 :: rest.1, rest.2)

/-- The periodic cleanup of lines 30–39: every expired record is removed. -/
def sweep (now : Int) (m : RateLimitMap) : RateLimitMap :=
  fun ip =>
    match m ip with
    | none => none
    | some r => if RATE_LIMIT_WINDOW < now - r.timestamp then none else some r

/-- An event touching the rate-limit table: an incoming request for a client
(`checkRateLimit` call) or a timer tick of the cleanup interval. -/
inductive RLOp
  | check (now : Int) (ip : String)
  | tick (now : Int)

/-- Apply one table event. -/
def applyOp : RLOp → RateLimitMap → RateLimitMap
  | .check now ip, m => (checkRateLimit now ip m).2
  | .tick now, m => sweep now m

/-- Apply a sequence of table events in order. -/
def applyOps (ops : List RLOp) (m : RateLimitMap) : RateLimitMap :=
  ops.foldl (fun acc op => applyOp op acc) m

/-- Invariant of the table: every present record has `1 ≤ count ≤ 5`. -/
def TableInv (m : RateLimitMap) : Prop :=
  ∀ ip r, m ip = some r → 1 ≤ r.count ∧ r.count ≤ RATE_LIMIT_MAX

/-! ## String helpers and validators (lines 41–53) -/

/-- JavaScript `String.prototype.trim` on the character list of a string:
drop leading whitespace, then trailing whitespace. -/
def trimChars (l : List Char) : List Char :=
  ((l.dropWhile Char.isWhitespace).reverse.dropWhile Char.isWhitespace).reverse

/-- JavaScript `str.trim()`. -/
def jstrim (s : String) : String := String.mk (trimChars s.data)

/-- `sanitize(str)` of lines 51–53: `str.trim().slice(0, 2000)`. -/
def sanitize (s : String) : String := String.mk ((trimChars s.data).take 2000)

/-- A character matched by `[^\s@]`: neither whitespace nor `@`. -/
def isRunChar (c : Char) : Bool := !c.isWhitespace && !(c == '@')

/-- Split a list at the first occurrence of `c`: `some (before, after)` with
`c` removed, or `none` when `c` does not occur. -/
def splitFirst (c : Char) : List Char → Option (List Char × List Char)
  | [] => none
  | x :: xs =>
    if x = c then some ([], xs)
    else
      match splitFirst c xs with
      | some p => some (x :: p.1, p.2)
      | none => none

/-- `validateEmail(email)` of lines 42–44: the anchored pattern
`[^\s@]+@[^\s@]+\.[^\s@]+`, compiled to a decision procedure.  Because the
run character class excludes `@`, a match fixes the `@` as the only `@` of
the string, so the text before the first `@` must be a nonempty run, the
text after it a nonempty run, and that second part must contain a `.` that
is neither its first nor its last character. -/
def validateEmail (email : String) : Bool :=
  match splitFirst '@' email.data with
  | none => false
  | some p =>
    !p.1.isEmpty && p.1.all isRunChar && p.2.all isRunChar &&
      ((p.2.drop 1).dropLast.any (fun c => c == '.'))

/-- The shape the e-mail pattern describes: a nonempty run of non-whitespace
non-`@` characters, `@`, such a run, `.`, such a run. -/
def EmailShape (l : List Char) : Prop :=
  ∃ A B C : List Char,
    A ≠ [] ∧ B ≠ [] ∧ C ≠ [] ∧
    (∀ c ∈ A, isRunChar c = true) ∧ (∀ c ∈ B, isRunChar c = true) ∧
    (∀ c ∈ C, isRunChar c = true) ∧
    l = A ++ '@' :: (B ++ '.' :: C)

/-- `validatePhone(phone)` of lines 46–49: strip every non-digit character
(`replace(/\D/g, '')`) and require at least 9 digits. -/
def validatePhone (phone : String) : Bool :=
  decide (9 ≤ (phone.data.filter Char.isDigit).length)

/-! ## `parseFloat` and the area rule (lines 277–279) -/

/-- Numeric value of a digit character. -/
def digitVal (c : Char) : Nat := c.toNat - ('0').toNat

/-- Value of a digit run, most significant digit first. -/
def digitsVal (l : List Char) : Nat :=
  l.foldl (fun acc c => 10 * acc + digitVal c) 0

/-- Sign prefix of a JavaScript float literal. -/
def parseSign : List Char → Int × List Char
  | '-' :: rest => (-1, rest)
  | '+' :: rest => (1, rest)
  | l => (1, l)

/-- Exponent suffix (`e`/`E`, optional sign, digit run).  A malformed
exponent contributes nothing, as `parseFloat` ignores trailing garbage. -/
def parseExp : List Char → Int
  | c :: rest =>
    if c == 'e' || c == 'E' then
      match rest with
      | '-' :: ds =>
        let d := ds.takeWhile Char.isDigit
        if d.isEmpty then 0 else -((digitsVal d : Int))
      | '+' :: ds =>
        let d := ds.takeWhile Char.isDigit
        if d.isEmpty then 0 else (digitsVal d : Int)
      | ds =>
        let d := ds.takeWhile Char.isDigit
        if d.isEmpty then 0 else (digitsVal d : Int)
    else 0
  | [] => 0

/-- JavaScript `parseFloat` on decimal input, with the exact value kept as a
scaled integer `(n, p)` denoting `n / 10 ^ p`: leading whitespace skipped,
optional sign, digit run, optional `.` and fraction run, optional exponent;
trailing characters ignored; `none` models `NaN`.  (`"Infinity"` is modelled
as `none`; the area rule rejects it either way.) -/
def parseFloatRaw (s : String) : Option (Int × Nat) :=
  let l1 := s.data.dropWhile Char.isWhitespace
  let p := parseSign l1
  let intPart := p.2.takeWhile Char.isDigit
  let l3 := p.2.dropWhile Char.isDigit
  let fracPart : List Char :=
    match l3 with
    | '.' :: rest => rest.takeWhile Char.isDigit
    | _ => []
  let l4 : List Char :=
    match l3 with
    | '.' :: rest => rest.dropWhile Char.isDigit
    | _ => l3
  if intPart.isEmpty && fracPart.isEmpty then none
  else
    let mantNum : Int :=
      p.1 * ((digitsVal intPart : Int) * 10 ^ fracPart.length
        + (digitsVal fracPart : Int))
    let e := parseExp l4
    if 0 ≤ e then some (mantNum * 10 ^ e.toNat, fracPart.length)
    else some (mantNum, fracPart.length + (-e).toNat)

/-- The rational number a parse result denotes. -/
def parseFloat (s : String) : Option ℚ :=
  (parseFloatRaw s).map (fun v => (v.1 : ℚ) / (10 : ℚ) ^ v.2)

/-- The area test of lines 277–279: `isNaN(area) || area < 20 || area > 2000`
(`true` means the rule fails and its message is pushed), with the comparisons
carried out on the scaled-integer value. -/
def areaFails (v : Option (Int × Nat)) : Bool :=
  match v with
  | none => true
  | some q => decide (q.1 < 20 * 10 ^ q.2) || decide (2000 * 10 ^ q.2 < q.1)

/-! ## JSON values and the validation pass (lines 260–299)

`request.json()` can resolve to any JSON value, not only an object of
strings; the handler's subsequent property accesses and method calls are
modelled with their JavaScript semantics (property access on `null` throws
a `TypeError`; a method call such as `.trim()`/`.replace()` on a truthy
non-string value throws a `TypeError`; absent properties are `undefined`,
modelled as `none`). -/

/-- A parsed JSON value.  A number is kept as the exact scaled decimal
`(n, p)` denoting `n / 10 ^ p` (JSON numerals are finite decimals, and
`parseFloat(String(x)) = x` for a finite number `x`). -/
inductive JsValue where
  | null
  | bool (b : Bool)
  | num (n : Int) (p : Nat)
  | str (s : String)
  | arr (elems : List JsValue)
  | obj (fields : List (String × JsValue))

/-- First-match lookup in an object's field list (`JSON.parse` keeps keys
unique, the later of duplicate keys winning; field lists here are assumed
duplicate-free, as `JSON.parse` produces). -/
def lookupJs (fs : List (String × JsValue)) (k : String) : Option JsValue :=
  (fs.find? (fun kv => kv.1 == k)).map (fun kv => kv.2)

/-- JavaScript property access `v[k]`: throws a `TypeError` on `null`,
yields the field on an object, `undefined` (`none`) otherwise.  (The named
fields the handler reads never collide with the index/length properties of
strings and arrays.) -/
def getProp : JsValue → String → Except String (Option JsValue)
  | .null, _ => .error "TypeError: Cannot read properties of null"
  | .obj fs, k => .ok (lookupJs fs k)
  | _, _ => .ok none

/-- JavaScript truthiness of a possibly-absent value: `undefined`, `null`,
`false`, `0` and `""` are falsy. -/
def truthy : Option JsValue → Bool
  | none => false
  | some .null => false
  | some (.bool b) => b
  | some (.num n _) => decide (n ≠ 0)
  | some (.str s) => !(s == "")
  | some (.arr _) => true
  | some (.obj _) => true

/-- `['nowy', 'istniejący'].includes(v)` (strict equality: only the two
string values are members). -/
def includesBuildingType : Option JsValue → Bool
  | some (.str s) => s == "nowy" || s == "istniejący"
  | _ => false

/-- Line 273: `!data.buildingType || !['nowy','istniejący'].includes(...)`. -/
def buildingTypeBad (v : Option JsValue) : Bool :=
  !(truthy v) || !(includesBuildingType v)

/-- `parseFloat(v)` after JavaScript's `ToString` coercion: a string is
parsed, a number round-trips to itself, and the text of `null`, `undefined`,
booleans, arrays and objects is modelled as non-numeric (`NaN`). -/
def parseFloatJs : Option JsValue → Option (Int × Nat)
  | some (.str s) => parseFloatRaw s
  | some (.num n p) => some (n, p)
  | _ => none

/-- Lines 277–279: the area rule on the raw property value. -/
def areaBadJs (v : Option JsValue) : Bool := areaFails (parseFloatJs v)

/-- `validateEmail(v)`: the regular expression's `test` coerces its argument
with `ToString`; the rendering of a non-string JSON value is modelled as
never matching the e-mail pattern. -/
def validateEmailJs : Option JsValue → Bool
  | some (.str s) => validateEmail s
  | _ => false

/-- Line 286: `!data.email || !validateEmail(data.email)`. -/
def emailBad (v : Option JsValue) : Bool :=
  !(truthy v) || !(validateEmailJs v)

/-- Line 282: `!data.location || !data.location.trim()`.  A truthy non-string
value has no `trim` method: the call throws. -/
def locationBad (v : Option JsValue) : Except String Bool :=
  if truthy v then
    match v with
    | some (.str s) => .ok ((trimChars s.data).isEmpty)
    | _ => .error "TypeError: data.location.trim is not a function"
  else .ok true

/-- Line 290: `!data.phone || !validatePhone(data.phone)`.  A truthy
non-string value has no `replace` method inside `validatePhone`: the call
throws. -/
def phoneBad (v : Option JsValue) : Except String Bool :=
  if truthy v then
    match v with
    | some (.str s) => .ok (!(validatePhone s))
    | _ => .error "TypeError: data.phone.replace is not a function"
  else .ok true

def msgBuildingType : String := "Nieprawidłowy typ budynku"

def msgArea : String := "Nieprawidłowa powierzchnia"

def msgLocation : String := "Brak województwa"

def msgEmail : String := "Nieprawidłowy adres email"

def msgPhone : String := "Nieprawidłowy numer telefonu"

def msgConfig : String := "Konfiguracja serwera nieprawidłowa. Proszę spróbować później."

def msgRate : String := "Zbyt wiele zgłoszeń. Proszę spróbować za chwilę."

def msgParse : String := "Nieprawidłowe dane."

def msgDelivery : String := "Nie udało się wysłać zgłoszenia. Proszę spróbować ponownie."

/-- Lines 271–292: the five field rules evaluated in order, every failing
rule pushing its message; a thrown `TypeError` aborts the pass (and, being
outside every `try`, the handler). -/
def validationErrors (data : JsValue) : Except String (List String) :=
  match getProp data "buildingType" with
  | .error e => .error e
  | .ok bt =>
    let e1 : List String := if buildingTypeBad bt then [msgBuildingType] else []
    match getProp data "area" with
    | .error e => .error e
    | .ok av =>
      let e2 : List String := if areaBadJs av then [msgArea] else []
      match getProp data "location" with
      | .error e => .error e
      | .ok lv =>
        match locationBad lv with
        | .error e => .error e
        | .ok lBad =>
          let e3 : List String := if lBad then [msgLocation] else []
          match getProp data "email" with
          | .error e => .error e
          | .ok ev =>
            let e4 : List String := if emailBad ev then [msgEmail] else []
            match getProp data "phone" with
            | .error e => .error e
            | .ok pv =>
              match phoneBad pv with
              | .error e => .error e
              | .ok pBad =>
                let e5 : List String := if pBad then [msgPhone] else []
                .ok (e1 ++ e2 ++ e3 ++ e4 ++ e5)

/-! ## Message composition (`formatLeadEmail` lines 56–107,
`formatLeadHtml` lines 109–212, `getConfirmationEmailHtml` lines 214–234)

The composers receive the sanitized record (string values only); the
timestamp text `new Date().toLocaleString('pl-PL', ...)` is passed in as the
parameter `nowStr`. -/

/-- Lookup in the sanitized record. -/
def getS (d : List (String × String)) (k : String) : Option String :=
  (d.find? (fun kv => kv.1 == k)).map (fun kv => kv.2)

/-- JavaScript template interpolation of a possibly-absent value. -/
def strOf (v : Option String) : String := v.getD "undefined"

/-- Truthiness of a possibly-absent string: `undefined` and `""` are falsy. -/
def truthyS : Option String → Bool
  | none => false
  | some s => !(s == "")

/-- `data.notes.replace(/\n/g, '<br>')`. -/
def nlToBr (s : String) : String :=
  String.mk (s.data.flatMap (fun c => if c = '\n' then ("<br>").data else [c]))

/-- The `sections` array of `formatLeadEmail` (lines 57–104): the fixed
contact/building lines, the conditionally pushed optional lines, the
unconditionally pushed `### Dodatkowe informacje` heading, and the footer. -/
def leadSections (nowStr : String) (d : List (String × String)) : List String :=
  let base := [
    "## Nowe zgłoszenie - Argentech\n",
    "### Dane kontaktowe",
    "- **Email:** " ++ strOf (getS d "email"),
    "- **Telefon:** " ++ strOf (getS d "phone"),
    "",
    "### Informacje o budynku",
    "- **Typ budynku:** " ++ strOf (getS d "buildingType"),
    "- **Powierzchnia:** " ++ strOf (getS d "area") ++ " m²",
    "- **Województwo:** " ++ strOf (getS d "location")]
  let s1 := base ++ (if truthyS (getS d "currentHeating") then
    ["- **Aktualne źródło ciepła:** " ++ strOf (getS d "currentHeating")] else [])
  let s2 := s1 ++ (if truthyS (getS d "installation") then
    ["- **Instalacja grzewcza:** " ++ strOf (getS d "installation")] else [])
  let s3 := s2 ++ ["", "### Dodatkowe informacje"]
  let s4 := s3 ++ (if truthyS (getS d "hasPV") then
    ["- **Fotowoltaika:** " ++ (strOf (getS d "hasPV")
      ++ (if truthyS (getS d "pvPower") then
        " (" ++ strOf (getS d "pvPower") ++ " kWp)" else ""))] else [])
  let s5 := s4 ++ (if truthyS (getS d "hasStorage") then
    ["- **Magazyn energii:** " ++ (strOf (getS d "hasStorage")
      ++ (if truthyS (getS d "storageCapacity") then
        " (" ++ strOf (getS d "storageCapacity") ++ " kWh)" else ""))] else [])
  let s6 := s5 ++ (if truthyS (getS d "notes") then
    ["", "### Uwagi od klienta", strOf (getS d "notes")] else [])
  s6 ++ ["", "---", "Zgłoszenie z: " ++ nowStr]

/-- `formatLeadEmail`: the sections joined by newlines (line 106). -/
def formatLeadEmail (nowStr : String) (d : List (String × String)) : String :=
  String.intercalate "\n" (leadSections nowStr d)

/-- The unconditional opening of `formatLeadHtml` (lines 110–140): heading,
contact table, and the building table up to the location row. -/
def htmlIntro (d : List (String × String)) : String :=
  "
    <div style=\"font-family: -apple-system, BlinkMacSystemFont, 'Segoe UI', Roboto, sans-serif; max-width: 600px; margin: 0 auto;\">
      <h2 style=\"color: #243B53; border-bottom: 2px solid #243B53; padding-bottom: 10px;\">Nowe zgłoszenie - Argentech</h2>

      <h3 style=\"color: #2c3039; margin-top: 24px;\">Dane kontaktowe</h3>
      <table style=\"width: 100%; border-collapse: collapse;\">
        <tr>
          <td style=\"padding: 8px 0; color: #5c6370; width: 40%;\">Email:</td>
          <td style=\"padding: 8px 0; color: #2c3039;\"><strong>" ++ strOf (getS d "email") ++ "</strong></td>
        </tr>
        <tr>
          <td style=\"padding: 8px 0; color: #5c6370;\">Telefon:</td>
          <td style=\"padding: 8px 0; color: #2c3039;\"><strong>" ++ strOf (getS d "phone") ++ "</strong></td>
        </tr>
      </table>

      <h3 style=\"color: #2c3039; margin-top: 24px;\">Informacje o budynku</h3>
      <table style=\"width: 100%; border-collapse: collapse;\">
        <tr>
          <td style=\"padding: 8px 0; color: #5c6370; width: 40%;\">Typ budynku:</td>
          <td style=\"padding: 8px 0; color: #2c3039;\">" ++ strOf (getS d "buildingType") ++ "</td>
        </tr>
        <tr>
          <td style=\"padding: 8px 0; color: #5c6370;\">Powierzchnia:</td>
          <td style=\"padding: 8px 0; color: #2c3039;\">" ++ strOf (getS d "area") ++ " m²</td>
        </tr>
        <tr>
          <td style=\"padding: 8px 0; color: #5c6370;\">Województwo:</td>
          <td style=\"padding: 8px 0; color: #2c3039;\">" ++ strOf (getS d "location") ++ "</td>
        </tr>
  "

/-- The conditional heating row (lines 142–149). -/
def htmlHeatingRow (d : List (String × String)) : String :=
  "
        <tr>
          <td style=\"padding: 8px 0; color: #5c6370;\">Aktualne źródło ciepła:</td>
          <td style=\"padding: 8px 0; color: #2c3039;\">" ++ strOf (getS d "currentHeating") ++ "</td>
        </tr>
    "

/-- The conditional installation row (lines 151–158). -/
def htmlInstallationRow (d : List (String × String)) : String :=
  "
        <tr>
          <td style=\"padding: 8px 0; color: #5c6370;\">Instalacja grzewcza:</td>
          <td style=\"padding: 8px 0; color: #2c3039;\">" ++ strOf (getS d "installation") ++ "</td>
        </tr>
    "

/-- The `Dodatkowe informacje` block of the markup body (lines 163–194),
emitted only when `hasPV` or `hasStorage` is truthy. -/
def htmlExtraBlock (d : List (String × String)) : String :=
  "<h3 style=\"color: #2c3039; margin-top: 24px;\">Dodatkowe informacje</h3>
      <table style=\"width: 100%; border-collapse: collapse;\">"
  ++ (if truthyS (getS d "hasPV") then
    "
        <tr>
          <td style=\"padding: 8px 0; color: #5c6370; width: 40%;\">Fotowoltaika:</td>
          <td style=\"padding: 8px 0; color: #2c3039;\">" ++ (strOf (getS d "hasPV")
            ++ (if truthyS (getS d "pvPower") then
              " (" ++ strOf (getS d "pvPower") ++ " kWp)" else "")) ++ "</td>
        </tr>
      " else "")
  ++ (if truthyS (getS d "hasStorage") then
    "
        <tr>
          <td style=\"padding: 8px 0; color: #5c6370;\">Magazyn energii:</td>
          <td style=\"padding: 8px 0; color: #2c3039;\">" ++ (strOf (getS d "hasStorage")
            ++ (if truthyS (getS d "storageCapacity") then
              " (" ++ strOf (getS d "storageCapacity") ++ " kWh)" else "")) ++ "</td>
        </tr>
      " else "")
  ++ "</table>"

/-- The conditional notes block (lines 196–201). -/
def htmlNotesBlock (d : List (String × String)) : String :=
  "
      <h3 style=\"color: #2c3039; margin-top: 24px;\">Uwagi od klienta</h3>
      <p style=\"color: #2c3039; background-color: #f5f6f7; padding: 12px; border-radius: 4px;\">" ++ nlToBr (strOf (getS d "notes")) ++ "</p>
    "

/-- The closing of the markup body (lines 203–209). -/
def htmlFooter (nowStr : String) : String :=
  "
      <hr style=\"margin-top: 32px; border: none; border-top: 1px solid #e2e4e8;\">
      <p style=\"color: #7a8291; font-size: 12px;\">
        Zgłoszenie z: " ++ nowStr ++ "
      </p>
    </div>
  "

/-- `formatLeadHtml` (lines 109–212): the unconditional opening, the two
conditional building rows, the closing `</table>`, the conditional extra
block, the conditional notes block, the footer. -/
def formatLeadHtml (nowStr : String) (d : List (String × String)) : String :=
  htmlIntro d
  ++ (if truthyS (getS d "currentHeating") then htmlHeatingRow d else "")
  ++ (if truthyS (getS d "installation") then htmlInstallationRow d else "")
  ++ "</table>"
  ++ (if truthyS (getS d "hasPV") || truthyS (getS d "hasStorage") then
      htmlExtraBlock d else "")
  ++ (if truthyS (getS d "notes") then htmlNotesBlock d else "")
  ++ htmlFooter nowStr

/-- `getConfirmationEmailHtml` (lines 214–234): the static confirmation
body. -/
def getConfirmationEmailHtml : String :=
  "
    <div style=\"font-family: -apple-system, BlinkMacSystemFont, 'Segoe UI', Roboto, sans-serif; max-width: 600px; margin: 0 auto; padding: 20px;\">
      <h2 style=\"color: #243B53;\">Dziękujemy za zgłoszenie</h2>
      <p style=\"color: #2c3039; line-height: 1.6;\">
        Otrzymaliśmy Twoje zgłoszenie dotyczące analizy systemu grzewczego.
      </p>
      <p style=\"color: #2c3039; line-height: 1.6;\">
        <strong>Skontaktujemy się w ciągu 24–48 godzin</strong>, aby omówić szczegóły 
        i przygotować indywidualną wycenę.
      </p>
      <p style=\"color: #2c3039; line-height: 1.6;\">
        W międzyczasie, jeśli masz dodatkowe pytania, możesz odpowiedzieć na tę wiadomość.
      </p>
      <hr style=\"margin-top: 32px; border: none; border-top: 1px solid #e2e4e8;\">
      <p style=\"color: #7a8291; font-size: 12px;\">
        Argentech – Niezależne doradztwo techniczne
      </p>
    </div>
  "

/-! ## The request handler `POST` (lines 236–344)

The environment, the client address and the `x-forwarded-for` header are
explicit inputs.  The parsed body is `none` when `request.json()` rejects
(caught at lines 263–268) and `some v` otherwise.  Modelled from the spec:
the external delivery collaborator (`resend.emails.send`) is an awaitable
whose failure surfaces as an exception caught by the `try` of lines 313–343;
its two outcomes are the inputs `send1Ok`/`send2Ok`, and the handler result
records every call issued to it in order. -/

/-- The configuration surface read at lines 238–240 and 311. -/
structure Env where
  resendApiKey : Option String
  leadToEmail : Option String
  leadFromEmail : Option String
  leadReplyToEmail : Option String

/-- Line 242: `!apiKey || !toEmail || !fromEmail`, negated. -/
def envOk (env : Env) : Bool :=
  truthyS env.resendApiKey && truthyS env.leadToEmail && truthyS env.leadFromEmail

/-- Line 251: `clientAddress || request.headers.get('x-forwarded-for') ||
'unknown'`. -/
def resolveIp (clientAddress xff : Option String) : String :=
  if truthyS clientAddress then clientAddress.getD ""
  else if truthyS xff then xff.getD ""
  else "unknown"

/-- `Object.entries(data)` (line 303): the fields of an object, the indexed
elements of an array, the indexed characters of a string, nothing for a
primitive. -/
def entriesJs : JsValue → List (String × JsValue)
  | .obj fs => fs
  | .arr es => es.enum.map (fun p => (Nat.repr p.1, p.2))
  | .str s => s.data.enum.map (fun p => (Nat.repr p.1, JsValue.str (String.mk [p.2])))
  | _ => []

/-- Lines 302–307: keep the string-valued entries, sanitized; non-string
values are dropped. -/
def sanitizeEntries (data : JsValue) : List (String × String) :=
  (entriesJs data).filterMap fun kv =>
    match kv.2 with
    | .str s => some (kv.1, sanitize s)
    | _ => none

/-- One call to the delivery collaborator, with the arguments of
`resend.emails.send`. -/
structure EmailCall where
  fromAddr : String
  toAddr : String
  replyTo : String
  subject : String
  textBody : Option String
  htmlBody : String

/-- A structured JSON response body of the handler. -/
inductive ResponseBody
  | errorMsg (s : String)
  | successTrue
deriving DecidableEq

/-- How a handler invocation ends: a structured response, or an exception
that escaped every `try` of the handler. -/
inductive HandlerOutcome
  | response (status : Nat) (body : ResponseBody)
  | thrown (msg : String)
deriving DecidableEq

/-- The observable result of one `POST` invocation: the outcome, the
rate-limit table afterwards, and the delivery calls issued, in order. -/
structure PostResult where
  outcome : HandlerOutcome
  table : RateLimitMap
  calls : List EmailCall

/-- The business notification of lines 315–322. -/
def businessCall (env : Env) (nowStr : String) (sd : List (String × String)) :
    EmailCall :=
  ⟨env.leadFromEmail.getD "", env.leadToEmail.getD "", strOf (getS sd "email"),
    "Nowe zgłoszenie - " ++ strOf (getS sd "buildingType") ++ " "
      ++ strOf (getS sd "area") ++ "m² (" ++ strOf (getS sd "location") ++ ")",
    some (formatLeadEmail nowStr sd), formatLeadHtml nowStr sd⟩

/-- The submitter confirmation of lines 325–331 (`replyTo` is the configured
reply address when set, else the submitter's e-mail, line 311). -/
def confirmationCall (env : Env) (sd : List (String × String)) : EmailCall :=
  ⟨env.leadFromEmail.getD "", strOf (getS sd "email"),
    (if truthyS env.leadReplyToEmail then env.leadReplyToEmail.getD ""
     else strOf (getS sd "email")),
    "Argentech - Potwierdzenie zgłoszenia", none, getConfirmationEmailHtml⟩

/-- The handler `POST` (lines 236–344): config check, rate check, parse,
validate, sanitize, deliver, respond.  A validation-time `TypeError`
(`validationErrors` returning `.error`) stands outside every `try` of the
handler and escapes as `thrown`.  The second send is attempted only when the
first succeeded; a failed send jumps to the `catch` of lines 337–343. -/
def POST (env : Env) (clientAddress xff : Option String)
    (parsedBody : Option JsValue) (now : Int) (nowStr : String)
    (rl : RateLimitMap) (send1Ok send2Ok : Bool) : PostResult :=
  if !(envOk env) then
    ⟨.response 500 (.errorMsg msgConfig), rl, []⟩
  else
    let ip := resolveIp clientAddress xff
    let rc := checkRateLimit now ip rl
    if !rc.1 then
      ⟨.response 429 (.errorMsg msgRate), rc.2, []⟩
    else
      match parsedBody with
      | none => ⟨.response 400 (.errorMsg msgParse), rc.2, []⟩
      | some data =>
        match validationErrors data with
        | .error e => ⟨.thrown e, rc.2, []⟩
        | .ok errs =>
          if !errs.isEmpty then
            ⟨.response 400 (.errorMsg (String.intercalate ". " errs)), rc.2, []⟩
          else
            let sd := sanitizeEntries data
            if !send1Ok then
              ⟨.response 500 (.errorMsg msgDelivery), rc.2,
                [businessCall env nowStr sd]⟩
            else if !send2Ok then
              ⟨.response 500 (.errorMsg msgDelivery), rc.2,
                [businessCall env nowStr sd, confirmationCall env sd]⟩
            else
              ⟨.response 200 .successTrue, rc.2,
                [businessCall env nowStr sd, confirmationCall env sd]⟩

/-! ## Concrete instances used by witnesses and counterexamples -/

/-- Whether a JSON value is a string. -/
def isStr : JsValue → Bool
  | .str _ => true
  | _ => false

/-- Every optional field of the submission is absent or empty in the
sanitized record. -/
def allOptionalAbsent (d : List (String × String)) : Bool :=
  !(truthyS (getS d "currentHeating")) && !(truthyS (getS d "installation")) &&
  !(truthyS (getS d "hasPV")) && !(truthyS (getS d "pvPower")) &&
  !(truthyS (getS d "hasStorage")) && !(truthyS (getS d "storageCapacity")) &&
  !(truthyS (getS d "notes"))

/-- The plain-text sections a submission with no optional fields receives:
the required contact/building lines, the (empty) `### Dodatkowe informacje`
section, and the footer. -/
def requiredSections (nowStr : String) (d : List (String × String)) :
    List String :=
  ["## Nowe zgłoszenie - Argentech\n",
   "### Dane kontaktowe",
   "- **Email:** " ++ strOf (getS d "email"),
   "- **Telefon:** " ++ strOf (getS d "phone"),
   "",
   "### Informacje o budynku",
   "- **Typ budynku:** " ++ strOf (getS d "buildingType"),
   "- **Powierzchnia:** " ++ strOf (getS d "area") ++ " m²",
   "- **Województwo:** " ++ strOf (getS d "location"),
   "", "### Dodatkowe informacje",
   "", "---", "Zgłoszenie z: " ++ nowStr]

/-- A sanitized record with only the required fields. -/
def d0s : List (String × String) :=
  [("buildingType", "nowy"), ("area", "100"), ("location", "Mazowieckie"),
   ("email", "a@b.c"), ("phone", "123456789")]

/-- A complete server configuration. -/
def env0 : Env :=
  ⟨some "key", some "biuro@argentech.pl", some "noreply@argentech.pl", none⟩

/-- A fully valid submission body. -/
def validBody : JsValue := .obj [
  ("buildingType", .str "nowy"), ("area", .str "100"),
  ("location", .str "Mazowieckie"), ("email", .str "a@b.c"),
  ("phone", .str "123456789")]

/-- A submission failing the building-type and phone rules only. -/
def invalidFields : List (String × JsValue) := [
  ("buildingType", .str "stary"), ("area", .str "100"),
  ("location", .str "Mazowieckie"), ("email", .str "a@b.c"),
  ("phone", .str "12")]

/-! ## Theorems: rate limiter -/

lemma RATE_LIMIT_MAX_eq : RATE_LIMIT_MAX = 5 := rfl

lemma mapSet_self (m : RateLimitMap) (ip : String) (r : RateRecord) :
    mapSet m ip r ip = some r := by
  simp [mapSet]

/-- Admissions of an in-window run: starting from a record `⟨c, t0⟩` with
`1 ≤ c ≤ 5`, a sequence of requests all within the window of `t0` is admitted
exactly while the count is below the limit, and the final count is
`min (c + length) 5` with the window start unchanged. -/
lemma runSeq_inWindow (ip : String) (t0 : Int) (ts : List Int) :
    ∀ (m : RateLimitMap) (c : Nat),
      1 ≤ c → c ≤ RATE_LIMIT_MAX → m ip = some ⟨c, t0⟩ →
      (∀ t ∈ ts, t - t0 ≤ RATE_LIMIT_WINDOW) →
      (runSeq ip ts m).1
          = (List.range ts.length).map (fun i => decide (c + i < RATE_LIMIT_MAX)) ∧
      (runSeq ip ts m).2 ip = some ⟨min (c + ts.length) RATE_LIMIT_MAX, t0⟩ := by
  induction ts with
  | nil =>
    intro m c h1 h5 hm _
    refine ⟨by simp [runSeq], ?_⟩
    have h0 : (runSeq ip ([] : List Int) m).2 = m := rfl
    rw [h0, hm]
    have : min (c + ([] : List Int).length) RATE_LIMIT_MAX = c := by
      rw [RATE_LIMIT_MAX_eq] at h5 ⊢
      simp only [List.length_nil]
      omega
    rw [this]
  | cons t ts ih =>
    intro m c h1 h5 hm hin
    have ht : t - t0 ≤ RATE_LIMIT_WINDOW := hin t (List.mem_cons_self _ _)
    have hnx : ¬ (RATE_LIMIT_WINDOW < t - t0) := not_lt.mpr ht
    have hrun : runSeq ip (t :: ts) m
        = ((checkRateLimit t ip m).1 :: (runSeq ip ts (checkRateLimit t ip m).2).1,
           (runSeq ip ts (checkRateLimit t ip m).2).2) := rfl
    by_cases hc : RATE_LIMIT_MAX ≤ c
    · have hstep : checkRateLimit t ip m = (false, m) := by
        simp [checkRateLimit, hm, hnx, hc]
      have ihh := ih m c h1 h5 hm (fun u hu => hin u (List.mem_cons_of_mem _ hu))
      rw [RATE_LIMIT_MAX_eq] at hc
      constructor
      · rw [hrun, hstep]
        simp only [List.length_cons, List.range_succ_eq_map, List.map_cons, List.map_map]
        rw [ihh.1]
        congr 1
        · rw [RATE_LIMIT_MAX_eq]
          exact (decide_eq_false (by omega)).symm
        · refine List.map_congr_left (fun a _ => ?_)
          simp only [Function.comp, RATE_LIMIT_MAX_eq]
          rw [decide_eq_decide]
          omega
      · rw [hrun, hstep]
        rw [ihh.2]
        have : min (c + ts.length) RATE_LIMIT_MAX
            = min (c + (t :: ts).length) RATE_LIMIT_MAX := by
          rw [RATE_LIMIT_MAX_eq]
          simp only [List.length_cons]
          omega
        rw [this]
    · have hstep : checkRateLimit t ip m
          = (true, mapSet m ip ⟨c + 1, t0⟩) := by
        simp [checkRateLimit, hm, hnx, hc]
      have ihh := ih (mapSet m ip ⟨c + 1, t0⟩) (c + 1) (by omega)
        (by rw [RATE_LIMIT_MAX_eq] at hc ⊢; omega)
        (mapSet_self m ip ⟨c + 1, t0⟩)
        (fun u hu => hin u (List.mem_cons_of_mem _ hu))
      rw [RATE_LIMIT_MAX_eq] at hc
      constructor
      · rw [hrun, hstep]
        simp only [List.length_cons, List.range_succ_eq_map, List.map_cons, List.map_map]
        rw [ihh.1]
        congr 1
        · rw [RATE_LIMIT_MAX_eq]
          exact (decide_eq_true (by omega)).symm
        · refine List.map_congr_left (fun a _ => ?_)
          simp only [Function.comp, RATE_LIMIT_MAX_eq]
          rw [decide_eq_decide]
          omega
      · rw [hrun, hstep]
        rw [ihh.2]
        have : min (c + 1 + ts.length) RATE_LIMIT_MAX
            = min (c + (t :: ts).length) RATE_LIMIT_MAX := by
          rw [RATE_LIMIT_MAX_eq]
          simp only [List.length_cons]
          omega
        rw [this]

/-- C1: the rate limiter implements a fixed 60000 ms window per client
identifier.  From a fresh state, a client's requests all lying within the
window opened by its first request are admitted exactly while fewer than 5
have been counted (so the first 5 are admitted and the 6th and later ones
rejected), a rejected request never mutates the record, and a request
arriving strictly after the window has elapsed is admitted again. -/
theorem checkRateLimit_fixed_window
    (m : RateLimitMap) (ip : String) (t0 : Int) (ts : List Int) (tLater : Int)
    (hfresh : m ip = none)
    (hin : ∀ t ∈ ts, t - t0 ≤ RATE_LIMIT_WINDOW)
    (hlater : RATE_LIMIT_WINDOW < tLater - t0) :
    (runSeq ip (t0 :: ts) m).1
        = (List.range (ts.length + 1)).map (fun i => decide (i < RATE_LIMIT_MAX)) ∧
    (checkRateLimit tLater ip (runSeq ip (t0 :: ts) m).2).1 = true ∧
    (∀ (now2 : Int) (m2 : RateLimitMap) (r : RateRecord),
      m2 ip = some r → now2 - r.timestamp ≤ RATE_LIMIT_WINDOW →
      RATE_LIMIT_MAX ≤ r.count → checkRateLimit now2 ip m2 = (false, m2)) := by
  have hstep : checkRateLimit t0 ip m = (true, mapSet m ip ⟨1, t0⟩) := by
    simp [checkRateLimit, hfresh]
  have hrun : runSeq ip (t0 :: ts) m
      = ((checkRateLimit t0 ip m).1 :: (runSeq ip ts (checkRateLimit t0 ip m).2).1,
         (runSeq ip ts (checkRateLimit t0 ip m).2).2) := rfl
  have haux := runSeq_inWindow ip t0 ts (mapSet m ip ⟨1, t0⟩) 1 le_rfl
    (by rw [RATE_LIMIT_MAX_eq]; omega) (mapSet_self m ip ⟨1, t0⟩) hin
  refine ⟨?_, ?_, ?_⟩
  · rw [hrun, hstep]
    simp only [List.range_succ_eq_map, List.map_cons, List.map_map]
    rw [haux.1]
    refine List.cons_eq_cons.mpr ⟨rfl, ?_⟩
    refine List.map_congr_left (fun a _ => ?_)
    simp only [Function.comp, RATE_LIMIT_MAX_eq]
    rw [decide_eq_decide]
    omega
  · rw [hrun, hstep]
    have h2 := haux.2
    simp only [checkRateLimit, h2]
    simp [hlater]
  · intro now2 m2 r hm2 hwin hcount
    simp [checkRateLimit, hm2, not_lt.mpr hwin, hcount]

/-- Witness for `checkRateLimit_fixed_window` at a concrete run: seven
requests from one client at millisecond times 0..6 give five admissions then
two rejections, and a request at 70000 ms is admitted again. -/
theorem checkRateLimit_fixed_window_witness :
    (runSeq "a" [0, 1, 2, 3, 4, 5, 6] emptyRateLimitMap).1
        = [true, true, true, true, true, false, false] ∧
    (checkRateLimit 70000 "a"
        (runSeq "a" [0, 1, 2, 3, 4, 5, 6] emptyRateLimitMap).2).1 = true := by
  have h := checkRateLimit_fixed_window emptyRateLimitMap "a" 0 [1, 2, 3, 4, 5, 6]
    70000 rfl (by decide) (by decide)
  exact ⟨h.1.trans (by decide), h.2.1⟩

lemma TableInv_applyOp (op : RLOp) (m : RateLimitMap) (h : TableInv m) :
    TableInv (applyOp op m) := by
  cases op with
  | check now ip =>
    intro k r hk
    simp only [applyOp] at hk
    rcases hm : m ip with _ | record
    · simp only [checkRateLimit, hm, mapSet] at hk
      split at hk
      · simp only [Option.some.injEq] at hk
        subst hk
        rw [RATE_LIMIT_MAX_eq]
        exact ⟨Nat.le_refl 1, by show (1 : Nat) ≤ 5; omega⟩
      · exact h k r hk
    · simp only [checkRateLimit, hm] at hk
      split at hk
      · simp only [mapSet] at hk
        split at hk
        · simp only [Option.some.injEq] at hk
          subst hk
          rw [RATE_LIMIT_MAX_eq]
          exact ⟨Nat.le_refl 1, by show (1 : Nat) ≤ 5; omega⟩
        · exact h k r hk
      · split at hk
        · exact h k r hk
        · next hlow =>
          simp only [mapSet] at hk
          split at hk
          · simp only [Option.some.injEq] at hk
            subst hk
            have hb := h ip record hm
            rw [RATE_LIMIT_MAX_eq] at hlow hb ⊢
            refine ⟨?_, ?_⟩
            · show 1 ≤ record.count + 1
              omega
            · show record.count + 1 ≤ 5
              omega
          · exact h k r hk
  | tick now =>
    intro k r hk
    simp only [applyOp, sweep] at hk
    rcases hm : m k with _ | r2
    · simp only [hm] at hk
      exact Option.noConfusion hk
    · simp only [hm] at hk
      split at hk
      · exact Option.noConfusion hk
      · injection hk with hh
        subst hh
        exact h k r2 hm

/-- C10: after any sequence of `checkRateLimit` calls and cleanup sweeps
starting from the empty table, every record present in the rate-limit table
has `1 ≤ count ≤ 5`. -/
theorem rateLimitTable_count_invariant (ops : List RLOp) :
    TableInv (applyOps ops emptyRateLimitMap) := by
  have hstep : ∀ (l : List RLOp) (m : RateLimitMap), TableInv m → TableInv (applyOps l m) := by
    intro l
    induction l with
    | nil => intro m h; exact h
    | cons op l2 ih => intro m h; exact ih _ (TableInv_applyOp op m h)
  exact hstep ops emptyRateLimitMap (fun ip r hk => by simp [emptyRateLimitMap] at hk)

/-! ## Theorems: sanitizer (C6) -/

lemma dropWhile_eq_self_of_not (p : Char → Bool) (l : List Char)
    (h : ∀ c ∈ l, p c = false) : l.dropWhile p = l := by
  cases l with
  | nil => rfl
  | cons x xs => simp [List.dropWhile_cons, h x (List.mem_cons_self x xs)]

lemma head?_dropWhile_not (p : Char → Bool) (l : List Char) :
    ∀ c, (l.dropWhile p).head? = some c → p c = false := by
  induction l with
  | nil => intro c h; cases h
  | cons x xs ih =>
    intro c h
    cases hpx : p x with
    | true =>
      simp only [List.dropWhile_cons, hpx, if_true] at h
      exact ih c h
    | false =>
      simp only [List.dropWhile_cons, hpx] at h
      simp only [Bool.false_eq_true, if_false, List.head?_cons,
        Option.some.injEq] at h
      subst h
      exact hpx

lemma getLast?_dropWhile (p : Char → Bool) (l : List Char) :
    ∀ c, (l.dropWhile p).getLast? = some c → l.getLast? = some c := by
  induction l with
  | nil => intro c h; cases h
  | cons x xs ih =>
    intro c h
    cases hpx : p x with
    | true =>
      simp only [List.dropWhile_cons, hpx, if_true] at h
      have h2 := ih c h
      cases xs with
      | nil => cases h2
      | cons y ys => rw [List.getLast?_cons_cons]; exact h2
    | false =>
      simp only [List.dropWhile_cons, hpx] at h
      simp only [Bool.false_eq_true, if_false] at h
      exact h

lemma trimChars_head? (l : List Char) (c : Char)
    (h : (trimChars l).head? = some c) : c.isWhitespace = false := by
  rw [trimChars, List.head?_reverse] at h
  have h2 := getLast?_dropWhile Char.isWhitespace
    ((l.dropWhile Char.isWhitespace).reverse) c h
  rw [List.getLast?_reverse] at h2
  exact head?_dropWhile_not Char.isWhitespace l c h2

lemma trimChars_getLast? (l : List Char) (c : Char)
    (h : (trimChars l).getLast? = some c) : c.isWhitespace = false := by
  rw [trimChars, List.getLast?_reverse] at h
  exact head?_dropWhile_not Char.isWhitespace _ c h

/-- C6 (amended): `sanitize` trims leading and trailing whitespace and then
truncates to at most 2000 characters; the trimmed text never starts or ends
with whitespace, every sanitized string has length at most 2000, and a
string of length 3000 *none of whose characters is whitespace* sanitizes to
exactly 2000 characters.  (The original claim, for every string of length
3000, fails: trimming can shorten a whitespace-padded string below 2000
characters first.) -/
theorem sanitize_trim_truncate (s : String)
    (hlen : s.length = 3000)
    (hnw : ∀ c ∈ s.data, c.isWhitespace = false) :
    (sanitize s).length = 2000 ∧
    (∀ t : String, (sanitize t).length ≤ 2000) ∧
    (∀ (t : String) (c : Char),
      (jstrim t).data.head? = some c → c.isWhitespace = false) ∧
    (∀ (t : String) (c : Char),
      (jstrim t).data.getLast? = some c → c.isWhitespace = false) := by
  refine ⟨?_, ?_, ?_, ?_⟩
  · have htrim : trimChars s.data = s.data := by
      rw [trimChars, dropWhile_eq_self_of_not _ _ hnw,
        dropWhile_eq_self_of_not _ _ (fun c hc => hnw c (List.mem_reverse.mp hc))]
      exact List.reverse_reverse _
    show ((trimChars s.data).take 2000).length = 2000
    rw [htrim, List.length_take]
    have hd : s.data.length = 3000 := hlen
    rw [hd]
    omega
  · intro t
    show ((trimChars t.data).take 2000).length ≤ 2000
    rw [List.length_take]
    exact min_le_left _ _
  · intro t c h
    exact trimChars_head? t.data c h
  · intro t c h
    exact trimChars_getLast? t.data c h

/-- Witness for `sanitize_trim_truncate`: 3000 letters sanitize to exactly
2000 characters. -/
theorem sanitize_trim_truncate_witness :
    (sanitize (String.mk (List.replicate 3000 'a'))).length = 2000 :=
  (sanitize_trim_truncate (String.mk (List.replicate 3000 'a'))
    (by show (List.replicate 3000 'a').length = 3000; rw [List.length_replicate])
    (fun c hc => by rw [List.eq_of_mem_replicate hc]; rfl)).1

lemma dropWhile_ws_replicate (n : Nat) :
    (List.replicate n '\t').dropWhile Char.isWhitespace = [] := by
  induction n with
  | zero => rfl
  | succ k ih =>
    rw [List.replicate_succ, List.dropWhile_cons]
    simp only [show ('\t').isWhitespace = true from rfl, if_true]
    exact ih

/-- C6 counterexample: a string of 3000 whitespace characters has length
3000, yet its sanitized form is empty — not 2000 characters long. -/
theorem sanitize_length_3000_not_2000 :
    (String.mk (List.replicate 3000 '\t')).length = 3000 ∧
    ¬ ((sanitize (String.mk (List.replicate 3000 '\t'))).length = 2000) := by
  constructor
  · show (List.replicate 3000 '\t').length = 3000
    rw [List.length_replicate]
  · show ¬ (((trimChars (List.replicate 3000 '\t')).take 2000).length = 2000)
    rw [trimChars, dropWhile_ws_replicate]
    simp

/-! ## Theorems: phone rule (C9) -/

/-- C9: the phone rule accepts a string exactly when at least 9 digits
remain after removing every non-digit character: 9 digits validate, 8 do
not, a formatted number validates, and inserting any non-digit character
anywhere never changes the outcome. -/
theorem validatePhone_spec :
    validatePhone "123456789" = true ∧
    validatePhone "12345678" = false ∧
    validatePhone "(12) 345-67-89" = true ∧
    (∀ s : String,
      validatePhone s = true ↔ 9 ≤ (s.data.filter Char.isDigit).length) ∧
    (∀ (l1 l2 : List Char) (c : Char), c.isDigit = false →
      validatePhone (String.mk (l1 ++ c :: l2))
        = validatePhone (String.mk (l1 ++ l2))) := by
  refine ⟨rfl, rfl, rfl, ?_, ?_⟩
  · intro s
    simp [validatePhone]
  · intro l1 l2 c hc
    show decide (9 ≤ ((l1 ++ c :: l2).filter Char.isDigit).length)
        = decide (9 ≤ ((l1 ++ l2).filter Char.isDigit).length)
    simp [List.filter_append, List.filter_cons, hc]

/-! ## Theorems: area rule (C7) -/

/-- C7: the area rule accepts exactly the inputs that parse as a number `x`
with `20 ≤ x ≤ 2000`, bounds inclusive: non-parsing input is rejected, and
`"20"` and `"2000"` are accepted while `"19.99"` and `"2000.01"` are
rejected. -/
theorem area_rule_inclusive_bounds :
    (∀ (s : String) (x : ℚ), parseFloat s = some x →
      (areaFails (parseFloatRaw s) = false ↔ (20 ≤ x ∧ x ≤ 2000))) ∧
    (∀ s : String, parseFloat s = none → areaFails (parseFloatRaw s) = true) ∧
    areaFails (parseFloatRaw "20") = false ∧
    areaFails (parseFloatRaw "2000") = false ∧
    areaFails (parseFloatRaw "19.99") = true ∧
    areaFails (parseFloatRaw "2000.01") = true := by
  refine ⟨?_, ?_, by decide, by decide, by decide, by decide⟩
  · intro s x h
    rw [parseFloat] at h
    cases hr : parseFloatRaw s with
    | none => rw [hr] at h; cases h
    | some q =>
      rw [hr] at h
      simp at h
      subst h
      have hpow : (0 : ℚ) < (10 : ℚ) ^ q.2 := by positivity
      simp only [areaFails, Bool.or_eq_false_iff, decide_eq_false_iff_not, not_lt]
      rw [le_div_iff₀ hpow, div_le_iff₀ hpow]
      constructor
      · rintro ⟨h1, h2⟩
        exact ⟨by exact_mod_cast h1, by exact_mod_cast h2⟩
      · rintro ⟨h1, h2⟩
        exact ⟨by exact_mod_cast h1, by exact_mod_cast h2⟩
  · intro s h
    rw [parseFloat] at h
    cases hr : parseFloatRaw s with
    | none => rfl
    | some q => rw [hr] at h; cases h

/-! ## Theorems: e-mail rule (C8) -/

lemma splitFirst_eq (c : Char) (l : List Char) :
    ∀ a b, splitFirst c l = some (a, b) → l = a ++ c :: b ∧ c ∉ a := by
  induction l with
  | nil => intro a b h; cases h
  | cons x xs ih =>
    intro a b h
    by_cases hx : x = c
    · rw [splitFirst, if_pos hx] at h
      simp only [Option.some.injEq, Prod.mk.injEq] at h
      obtain ⟨h1, h2⟩ := h
      subst h1; subst h2; subst hx
      exact ⟨rfl, List.not_mem_nil _⟩
    · rw [splitFirst, if_neg hx] at h
      cases hsp : splitFirst c xs with
      | none => rw [hsp] at h; cases h
      | some p =>
        rw [hsp] at h
        simp only [Option.some.injEq, Prod.mk.injEq] at h
        obtain ⟨h1, h2⟩ := h
        obtain ⟨hd, hni⟩ := ih p.1 p.2 (by rw [hsp])
        subst h1; subst h2
        refine ⟨by rw [List.cons_append, ← hd], ?_⟩
        intro hmem
        rcases List.mem_cons.mp hmem with hh | hh
        · exact hx hh.symm
        · exact hni hh

lemma splitFirst_append (c : Char) (a b : List Char) (ha : c ∉ a) :
    splitFirst c (a ++ c :: b) = some (a, b) := by
  induction a with
  | nil => simp [splitFirst]
  | cons x xs ih =>
    have hx : ¬ (x = c) := fun h => ha (h ▸ List.mem_cons_self x xs)
    have ih2 := ih (fun h => ha (List.mem_cons_of_mem _ h))
    rw [List.cons_append, splitFirst, if_neg hx, ih2]

lemma interior_dot_iff (R : List Char) :
    ((R.drop 1).dropLast.any (fun c => c == '.')) = true ↔
      ∃ B C : List Char, B ≠ [] ∧ C ≠ [] ∧ R = B ++ '.' :: C := by
  constructor
  · intro h
    rw [List.any_eq_true] at h
    obtain ⟨c, hc, hcd⟩ := h
    have hc2 : c = '.' := by simpa using hcd
    subst hc2
    obtain ⟨s, t, hst⟩ := List.append_of_mem hc
    cases R with
    | nil => simp at hst
    | cons r0 R1 =>
      simp only [List.drop_succ_cons, List.drop_zero] at hst
      have hR1ne : R1 ≠ [] := by
        intro he
        rw [he] at hst
        simp at hst
      obtain ⟨x, hx⟩ : ∃ x, R1 = (s ++ '.' :: t) ++ [x] := by
        refine ⟨R1.getLast hR1ne, ?_⟩
        conv_lhs => rw [← List.dropLast_append_getLast hR1ne]
        rw [hst]
      refine ⟨r0 :: s, t ++ [x], by simp, by simp, ?_⟩
      rw [hx]
      simp
  · rintro ⟨B, C, hB, hC, rfl⟩
    rw [List.any_eq_true]
    refine ⟨'.', ?_, by simp⟩
    obtain ⟨b0, B1, rfl⟩ := List.exists_cons_of_ne_nil hB
    obtain ⟨C1, x, hCx⟩ : ∃ C1 x, C = C1 ++ [x] :=
      ⟨C.dropLast, C.getLast hC, (List.dropLast_append_getLast hC).symm⟩
    rw [hCx]
    simp only [List.cons_append, List.drop_succ_cons, List.drop_zero]
    have hre : B1 ++ '.' :: (C1 ++ [x]) = (B1 ++ '.' :: C1) ++ [x] := by simp
    rw [hre, List.dropLast_concat]
    simp

lemma validateEmail_iff (s : String) :
    validateEmail s = true ↔ EmailShape s.data := by
  constructor
  · intro h
    cases hsp : splitFirst '@' s.data with
    | none =>
      simp only [validateEmail, hsp] at h
      exact absurd h (by simp)
    | some p =>
      simp only [validateEmail, hsp, Bool.and_eq_true] at h
      obtain ⟨⟨⟨hne, hA⟩, hR⟩, hdot⟩ := h
      obtain ⟨hdecomp, _⟩ := splitFirst_eq '@' s.data p.1 p.2 (by rw [hsp])
      obtain ⟨B, C, hB, hC, hRd⟩ := (interior_dot_iff p.2).mp hdot
      refine ⟨p.1, B, C, ?_, hB, hC, ?_, ?_, ?_, ?_⟩
      · intro he
        rw [he] at hne
        simp at hne
      · exact fun c hc => (List.all_eq_true.mp hA) c hc
      · intro c hc
        exact (List.all_eq_true.mp hR) c
          (by rw [hRd]; exact List.mem_append_left _ hc)
      · intro c hc
        exact (List.all_eq_true.mp hR) c
          (by rw [hRd]; exact List.mem_append_right _ (List.mem_cons_of_mem _ hc))
      · rw [hdecomp, hRd]
  · rintro ⟨A, B, C, hA, hB, hC, hAr, hBr, hCr, hdec⟩
    have hnotin : '@' ∉ A := by
      intro hm
      have hrc := hAr '@' hm
      simp [isRunChar] at hrc
    have h1 : splitFirst '@' s.data = some (A, B ++ '.' :: C) := by
      rw [hdec]
      exact splitFirst_append '@' A (B ++ '.' :: C) hnotin
    simp only [validateEmail, h1, Bool.and_eq_true]
    refine ⟨⟨⟨?_, ?_⟩, ?_⟩, ?_⟩
    · cases A with
      | nil => exact absurd rfl hA
      | cons a as => rfl
    · exact List.all_eq_true.mpr hAr
    · refine List.all_eq_true.mpr ?_
      intro c hc
      rcases List.mem_append.mp hc with hh | hh
      · exact hBr c hh
      · rcases List.mem_cons.mp hh with hh2 | hh2
        · subst hh2; rfl
        · exact hCr c hh2
    · exact (interior_dot_iff _).mpr ⟨B, C, hB, hC, rfl⟩

/-- C8: the e-mail rule accepts exactly the strings of the form: a nonempty
run of characters that are neither whitespace nor `@`, then `@`, then such a
run, then `.`, then such a run; `"a@b.c"` validates while `"a@b"` and
`"a b@c.d"` do not. -/
theorem validateEmail_spec :
    (∀ s : String, validateEmail s = true ↔ EmailShape s.data) ∧
    validateEmail "a@b.c" = true ∧
    validateEmail "a@b" = false ∧
    validateEmail "a b@c.d" = false :=
  ⟨validateEmail_iff, rfl, rfl, rfl⟩

/-! ## Theorems: the handler (C2, C3, C4, C5) -/

/-- C4 (code bug): a request whose body parses to JSON `null` reaches the
property access `data.buildingType` (line 273) outside every `try` of the
handler, and the resulting `TypeError` escapes as an unhandled fault instead
of one of the specified structured JSON responses. -/
theorem post_null_body_throws :
    (POST env0 (some "1.2.3.4") none (some JsValue.null) 0 "czas"
      emptyRateLimitMap true true).outcome
      = .thrown "TypeError: Cannot read properties of null" := rfl

/-- C2 (amended): for a fully valid submission, the handler responds 200
`{success: true}` exactly when both sends succeed; it issues at most two
delivery calls — the business notification first and, only if that send
succeeded, the confirmation second — and any send failure yields the single
delivery error with status 500. -/
theorem post_delivery_semantics
    (env : Env) (ca xff : Option String) (data : JsValue)
    (now : Int) (nowStr : String) (rl : RateLimitMap)
    (henv : envOk env = true)
    (hrate : (checkRateLimit now (resolveIp ca xff) rl).1 = true)
    (hvalid : validationErrors data = Except.ok []) :
    (∀ send1Ok send2Ok : Bool,
      ((POST env ca xff (some data) now nowStr rl send1Ok send2Ok).outcome
          = .response 200 .successTrue)
        ↔ (send1Ok = true ∧ send2Ok = true)) ∧
    (∀ send2Ok : Bool,
      (POST env ca xff (some data) now nowStr rl true send2Ok).calls
        = [businessCall env nowStr (sanitizeEntries data),
           confirmationCall env (sanitizeEntries data)]) ∧
    (∀ send2Ok : Bool,
      (POST env ca xff (some data) now nowStr rl false send2Ok).calls
        = [businessCall env nowStr (sanitizeEntries data)]) ∧
    (∀ send1Ok send2Ok : Bool, ¬(send1Ok = true ∧ send2Ok = true) →
      (POST env ca xff (some data) now nowStr rl send1Ok send2Ok).outcome
        = .response 500 (.errorMsg msgDelivery)) := by
  refine ⟨?_, ?_, ?_, ?_⟩
  · intro b1 b2
    cases b1 <;> cases b2 <;> simp [POST, henv, hrate, hvalid]
  · intro b2
    cases b2 <;> simp [POST, henv, hrate, hvalid]
  · intro b2
    cases b2 <;> simp [POST, henv, hrate, hvalid]
  · intro b1 b2 hne
    cases b1 with
    | false => cases b2 <;> simp [POST, henv, hrate, hvalid]
    | true =>
      cases b2 with
      | false => simp [POST, henv, hrate, hvalid]
      | true => exact absurd ⟨rfl, rfl⟩ hne

/-- C2 counterexample: a fully valid submission whose business-notification
send fails issues exactly one delivery call, not two. -/
theorem post_first_send_fail_single_call :
    validationErrors validBody = Except.ok [] ∧
    (POST env0 (some "1.2.3.4") none (some validBody) 0 "czas"
      emptyRateLimitMap false true).calls.length = 1 := ⟨rfl, rfl⟩

/-- Witness for `post_delivery_semantics` at a concrete valid submission
with both sends succeeding. -/
theorem post_delivery_semantics_witness :
    (POST env0 (some "1.2.3.4") none (some validBody) 0 "czas"
      emptyRateLimitMap true true).outcome = .response 200 .successTrue := by
  have h := post_delivery_semantics env0 (some "1.2.3.4") none validBody 0 "czas"
    emptyRateLimitMap rfl rfl rfl
  exact (h.1 true true).mpr ⟨rfl, rfl⟩

lemma mem_if_singleton (m x : String) (b : Bool) :
    (m ∈ (if b then [x] else [])) ↔ (b = true ∧ m = x) := by
  cases b <;> simp

/-- C3: with an admitted request whose body is an object of string fields,
validation evaluates all five rules independently — each rule's message
appears in the collected list exactly when that rule fails, regardless of
the other rules — and whenever the list is nonempty the handler answers 400
with the messages joined by ". ", issuing no delivery call. -/
theorem validation_collects_all_errors
    (env : Env) (ca xff : Option String) (fs : List (String × JsValue))
    (now : Int) (nowStr : String) (rl : RateLimitMap) (b1 b2 : Bool)
    (henv : envOk env = true)
    (hrate : (checkRateLimit now (resolveIp ca xff) rl).1 = true)
    (hstr : (fs.all (fun kv => isStr kv.2)) = true) :
    ∃ errs : List String,
      validationErrors (.obj fs) = Except.ok errs ∧
      ((msgBuildingType ∈ errs) ↔ buildingTypeBad (lookupJs fs "buildingType") = true) ∧
      ((msgArea ∈ errs) ↔ areaBadJs (lookupJs fs "area") = true) ∧
      ((msgLocation ∈ errs) ↔ locationBad (lookupJs fs "location") = Except.ok true) ∧
      ((msgEmail ∈ errs) ↔ emailBad (lookupJs fs "email") = true) ∧
      ((msgPhone ∈ errs) ↔ phoneBad (lookupJs fs "phone") = Except.ok true) ∧
      (errs ≠ [] →
        (POST env ca xff (some (.obj fs)) now nowStr rl b1 b2).outcome
            = .response 400 (.errorMsg (String.intercalate ". " errs)) ∧
        (POST env ca xff (some (.obj fs)) now nowStr rl b1 b2).calls = []) := by
  have hfield : ∀ k : String,
      lookupJs fs k = none ∨ ∃ s, lookupJs fs k = some (JsValue.str s) := by
    intro k
    cases hf : fs.find? (fun kv => kv.1 == k) with
    | none => left; simp [lookupJs, hf]
    | some kv =>
      right
      have hmem := List.mem_of_find?_eq_some hf
      have hs := List.all_eq_true.mp hstr kv hmem
      cases hkv : kv.2 with
      | str s => exact ⟨s, by simp [lookupJs, hf, hkv]⟩
      | null => rw [hkv] at hs; simp [isStr] at hs
      | bool b => rw [hkv] at hs; simp [isStr] at hs
      | num n p => rw [hkv] at hs; simp [isStr] at hs
      | arr es => rw [hkv] at hs; simp [isStr] at hs
      | obj fs2 => rw [hkv] at hs; simp [isStr] at hs
  obtain ⟨lB, hlB⟩ : ∃ b : Bool,
      locationBad (lookupJs fs "location") = Except.ok b := by
    rcases hfield "location" with h | ⟨s, h⟩
    · exact ⟨true, by rw [h]; rfl⟩
    · rw [h]
      cases ht : truthy (some (JsValue.str s)) with
      | true => exact ⟨(trimChars s.data).isEmpty, by simp [locationBad, ht]⟩
      | false => exact ⟨true, by simp [locationBad, ht]⟩
  obtain ⟨pB, hpB⟩ : ∃ b : Bool,
      phoneBad (lookupJs fs "phone") = Except.ok b := by
    rcases hfield "phone" with h | ⟨s, h⟩
    · exact ⟨true, by rw [h]; rfl⟩
    · rw [h]
      cases ht : truthy (some (JsValue.str s)) with
      | true => exact ⟨!(validatePhone s), by simp [phoneBad, ht]⟩
      | false => exact ⟨true, by simp [phoneBad, ht]⟩
  have hval : validationErrors (JsValue.obj fs) = Except.ok (
      (if buildingTypeBad (lookupJs fs "buildingType") then [msgBuildingType] else [])
      ++ ((if areaBadJs (lookupJs fs "area") then [msgArea] else [])
      ++ ((if lB then [msgLocation] else [])
      ++ ((if emailBad (lookupJs fs "email") then [msgEmail] else [])
      ++ (if pB then [msgPhone] else []))))) := by
    simp only [validationErrors, getProp, hlB, hpB]
    simp [List.append_assoc]
  have hd12 : msgBuildingType ≠ msgArea := by decide
  have hd13 : msgBuildingType ≠ msgLocation := by decide
  have hd14 : msgBuildingType ≠ msgEmail := by decide
  have hd15 : msgBuildingType ≠ msgPhone := by decide
  have hd21 : msgArea ≠ msgBuildingType := by decide
  have hd23 : msgArea ≠ msgLocation := by decide
  have hd24 : msgArea ≠ msgEmail := by decide
  have hd25 : msgArea ≠ msgPhone := by decide
  have hd31 : msgLocation ≠ msgBuildingType := by decide
  have hd32 : msgLocation ≠ msgArea := by decide
  have hd34 : msgLocation ≠ msgEmail := by decide
  have hd35 : msgLocation ≠ msgPhone := by decide
  have hd41 : msgEmail ≠ msgBuildingType := by decide
  have hd42 : msgEmail ≠ msgArea := by decide
  have hd43 : msgEmail ≠ msgLocation := by decide
  have hd45 : msgEmail ≠ msgPhone := by decide
  have hd51 : msgPhone ≠ msgBuildingType := by decide
  have hd52 : msgPhone ≠ msgArea := by decide
  have hd53 : msgPhone ≠ msgLocation := by decide
  have hd54 : msgPhone ≠ msgEmail := by decide
  refine ⟨_, hval, ?_, ?_, ?_, ?_, ?_, ?_⟩
  · simp [List.mem_append, mem_if_singleton, hd12, hd13, hd14, hd15]
  · simp [List.mem_append, mem_if_singleton, hd21, hd23, hd24, hd25]
  · rw [hlB]
    simp [List.mem_append, mem_if_singleton, hd31, hd32, hd34, hd35]
  · simp [List.mem_append, mem_if_singleton, hd41, hd42, hd43, hd45]
  · rw [hpB]
    simp [List.mem_append, mem_if_singleton, hd51, hd52, hd53, hd54]
  · intro hne
    have hie : (((if buildingTypeBad (lookupJs fs "buildingType") then [msgBuildingType] else [])
      ++ ((if areaBadJs (lookupJs fs "area") then [msgArea] else [])
      ++ ((if lB then [msgLocation] else [])
      ++ ((if emailBad (lookupJs fs "email") then [msgEmail] else [])
      ++ (if pB then [msgPhone] else [])))))).isEmpty = false := by
      cases hc : (((if buildingTypeBad (lookupJs fs "buildingType") then [msgBuildingType] else [])
        ++ ((if areaBadJs (lookupJs fs "area") then [msgArea] else [])
        ++ ((if lB then [msgLocation] else [])
        ++ ((if emailBad (lookupJs fs "email") then [msgEmail] else [])
        ++ (if pB then [msgPhone] else [])))))) with
      | nil => exact absurd hc hne
      | cons x xs => rfl
    constructor
    · simp [POST, henv, hrate, hval, hie]
    · simp [POST, henv, hrate, hval, hie]

/-- Witness for `validation_collects_all_errors`: a submission failing the
building-type and phone rules gets a 400 response carrying exactly those two
messages joined by ". ", and no delivery call. -/
theorem validation_collects_all_errors_witness :
    (POST env0 (some "1.2.3.4") none (some (.obj invalidFields)) 0 "czas"
      emptyRateLimitMap true true).outcome
      = .response 400 (.errorMsg
          "Nieprawidłowy typ budynku. Nieprawidłowy numer telefonu") ∧
    (POST env0 (some "1.2.3.4") none (some (.obj invalidFields)) 0 "czas"
      emptyRateLimitMap true true).calls = [] := by
  obtain ⟨errs, h1, _, _, _, _, _, h7⟩ :=
    validation_collects_all_errors env0 (some "1.2.3.4") none invalidFields
      0 "czas" emptyRateLimitMap true true rfl rfl rfl
  have h2 : validationErrors (.obj invalidFields)
      = Except.ok [msgBuildingType, msgPhone] := rfl
  rw [h1] at h2
  have he : errs = [msgBuildingType, msgPhone] := Except.ok.inj h2
  subst he
  have hpost := h7 (by simp)
  exact ⟨hpost.1.trans (by rfl), hpost.2⟩

/-- C5 (amended): with every optional field absent or empty, the markup body
contains no optional section or heading — it is exactly the required
opening, the closed building table and the footer — and the plain-text
sections contain no optional field line; but the plain-text body still
carries the heading `### Dodatkowe informacje`, which `formatLeadEmail`
pushes unconditionally (an empty section — this is where the original claim
fails). -/
theorem composer_optional_sections (nowStr : String)
    (d : List (String × String)) (h : allOptionalAbsent d = true) :
    leadSections nowStr d = requiredSections nowStr d ∧
    formatLeadHtml nowStr d = htmlIntro d ++ "</table>" ++ htmlFooter nowStr := by
  simp only [allOptionalAbsent, Bool.and_eq_true, Bool.not_eq_true'] at h
  obtain ⟨⟨⟨⟨⟨⟨h1, h2⟩, h3⟩, h4⟩, h5⟩, h6⟩, h7⟩ := h
  constructor
  · simp [leadSections, requiredSections, h1, h2, h3, h5, h7]
  · simp [formatLeadHtml, h1, h2, h3, h5, h7]

/-- Witness for `composer_optional_sections` at the concrete record with
only required fields. -/
theorem composer_optional_sections_witness :
    formatLeadHtml "czas" d0s
      = htmlIntro d0s ++ "</table>" ++ htmlFooter "czas" :=
  (composer_optional_sections "czas" d0s rfl).2

set_option maxRecDepth 100000 in
/-- C5 counterexample: with every optional field absent, the plain-text body
still contains the optional-information section heading. -/
theorem text_heading_always_present :
    allOptionalAbsent d0s = true ∧
    ("### Dodatkowe informacje").data <:+: (formatLeadEmail "czas" d0s).data :=
  ⟨rfl, by decide⟩
